import Mathlib

/-!
Verification development for the AstrBot Telegram platform adapter
(`tg_event.py`, `tg_adapter.py`).

Python strings are modelled as `List Char` (Python indexing/slicing is by
code point, which matches `List Char` operations).  Remote calls
(`telegram.ext.ExtBot` methods, `telegramify_markdown.markdownify`, file
downloads) are modelled as oracles supplied to each operation; every call
the code issues is recorded in a trace.
-/

/-- Python `str` modelled as a list of code points. -/
abbrev PyStr := List Char

/-- Convert a Lean string literal to the `PyStr` model. -/
def pystr (s : String) : PyStr := s.data

/-! ## Text segmenter: `TelegramPlatformEvent._split_message_static`
(tg_event.py lines 157-189; `_split_message` lines 45-67 is the identical
instance-method copy). -/

/-- `MAX_MESSAGE_LENGTH = 4096` (tg_event.py line 23 / 160). -/
def MAX_MESSAGE_LENGTH : Nat := 4096

/-- Python whitespace class used by the regex `\s`, by `str.lstrip()` and by
`str.strip()` (ASCII core: space, tab, newline, carriage return, vertical
tab, form feed). -/
def pySpace (c : Char) : Bool :=
  c = ' ' || c = '\t' || c = '\n' || c = '\r' || c = '\x0b' || c = '\x0c'

/-- Character class of the "sentence" pattern `[.!?。！？]` (tg_event.py line 28). -/
def sentenceChar (c : Char) : Bool :=
  c = '.' || c = '!' || c = '?' || c = '。' || c = '！' || c = '？'

/-- End position (index one past the match) of the *last* match of a
single-character pattern `p` in `s`; `none` if there is no match.  This is
`list(pattern.finditer(segment))[-1].end()` for a one-character regex. -/
def lastEnd (p : Char → Bool) : List Char → Option Nat
  | [] => none
  | c :: rest =>
    match lastEnd p rest with
    | some e => some (e + 1)
    | none => if p c then some 1 else none

/-- End position of the last *non-overlapping* match of the two-character
pattern `\n\n`, scanning left to right exactly like `re.finditer` does
(after a match the scan resumes at its end). -/
def paraScan : List Char → Option Nat
  | [] => none
  | [_] => none
  | c1 :: c2 :: rest =>
    if c1 = '\n' ∧ c2 = '\n' then
      match paraScan rest with
      | some e => some (e + 2)
      | none => some 2
    else
      (paraScan (c2 :: rest)).map (· + 1)

/-- The split point chosen for a window `seg` of at most `MAX_MESSAGE_LENGTH`
characters: the patterns are tried in the dict order paragraph → line →
sentence → word; the first one with at least one match gives the end of its
last match; otherwise the hard cut at `MAX_MESSAGE_LENGTH`
(tg_event.py lines 177-184). -/
def splitPoint (seg : List Char) : Nat :=
  match paraScan seg with
  | some e => e
  | none =>
    match lastEnd (fun c => c = '\n') seg with
    | some e => e
    | none =>
      match lastEnd sentenceChar seg with
      | some e => e
      | none =>
        match lastEnd pySpace seg with
        | some e => e
        | none => MAX_MESSAGE_LENGTH

/-- Bounds for `lastEnd`: a reported match end is positive and within the
segment.  (Needed to justify termination of the chunking loop.) -/
theorem lastEnd_bounds (p : Char → Bool) :
    ∀ (s : List Char) (e : Nat), lastEnd p s = some e → 1 ≤ e ∧ e ≤ s.length := by
  intro s
  induction s with
  | nil => intro e h; simp [lastEnd] at h
  | cons c rest ih =>
    intro e h
    simp only [lastEnd] at h
    cases hrest : lastEnd p rest with
    | some e0 =>
      rw [hrest] at h
      obtain ⟨h1, h2⟩ := ih e0 hrest
      cases h
      constructor
      · omega
      · simp only [List.length_cons]; omega
    | none =>
      rw [hrest] at h
      by_cases hp : p c
      · simp [hp] at h
        cases h
        constructor
        · omega
        · simp only [List.length_cons]; omega
      · simp [hp] at h

/-- Helper for `paraScan_bounds`: fuel-indexed strong induction on length. -/
theorem paraScan_bounds_aux :
    ∀ (n : Nat) (s : List Char), s.length ≤ n →
      ∀ e, paraScan s = some e → 2 ≤ e ∧ e ≤ s.length := by
  intro n
  induction n with
  | zero =>
    intro s hs e h
    match s with
    | [] => simp [paraScan] at h
    | _ :: _ => simp at hs
  | succ n ih =>
    intro s hs e h
    match s with
    | [] => simp [paraScan] at h
    | [c] => simp [paraScan] at h
    | c1 :: c2 :: rest =>
      simp only [paraScan] at h
      by_cases hc : c1 = '\n' ∧ c2 = '\n'
      · rw [if_pos hc] at h
        cases hrest : paraScan rest with
        | some e0 =>
          rw [hrest] at h
          cases h
          have hb := ih rest (by simp only [List.length_cons] at hs; omega) e0 hrest
          simp only [List.length_cons]
          omega
        | none =>
          rw [hrest] at h
          cases h
          simp only [List.length_cons]
          omega
      · rw [if_neg hc] at h
        simp only [Option.map_eq_some'] at h
        obtain ⟨e0, he0, rfl⟩ := h
        have hb := ih (c2 :: rest) (by simp only [List.length_cons] at hs ⊢; omega) e0 he0
        simp only [List.length_cons] at hb ⊢
        omega

/-- Bounds for `paraScan`: a reported match end is at least 2 and within the
segment. -/
theorem paraScan_bounds (s : List Char) (e : Nat) (h : paraScan s = some e) :
    2 ≤ e ∧ e ≤ s.length :=
  paraScan_bounds_aux s.length s (le_refl _) e h

/-- Dropping a whitespace run never lengthens a list. -/
theorem dropWhile_length_le (p : Char → Bool) (l : List Char) :
    (l.dropWhile p).length ≤ l.length := by
  induction l with
  | nil => simp [List.dropWhile]
  | cons c rest ih =>
    by_cases h : p c
    · simp only [List.dropWhile_cons, h, if_true, List.length_cons]
      omega
    · simp [List.dropWhile_cons, h]

/-- The chosen split point is positive. -/
theorem splitPoint_pos (seg : List Char) : 1 ≤ splitPoint seg := by
  unfold splitPoint
  cases hp : paraScan seg with
  | some e => exact (paraScan_bounds seg e hp).1.trans' (by omega)
  | none =>
    cases h1 : lastEnd (fun c => c = '\n') seg with
    | some e => exact (lastEnd_bounds _ seg e h1).1
    | none =>
      cases h2 : lastEnd sentenceChar seg with
      | some e => exact (lastEnd_bounds _ seg e h2).1
      | none =>
        cases h3 : lastEnd pySpace seg with
        | some e => exact (lastEnd_bounds _ seg e h3).1
        | none => simp [MAX_MESSAGE_LENGTH]

/-- The chosen split point never exceeds `MAX_MESSAGE_LENGTH` when the window
has at most `MAX_MESSAGE_LENGTH` characters. -/
theorem splitPoint_le (seg : List Char) (hseg : seg.length ≤ MAX_MESSAGE_LENGTH) :
    splitPoint seg ≤ MAX_MESSAGE_LENGTH := by
  unfold splitPoint
  cases hp : paraScan seg with
  | some e => exact le_trans (paraScan_bounds seg e hp).2 hseg
  | none =>
    cases h1 : lastEnd (fun c => c = '\n') seg with
    | some e => exact le_trans (lastEnd_bounds _ seg e h1).2 hseg
    | none =>
      cases h2 : lastEnd sentenceChar seg with
      | some e => exact le_trans (lastEnd_bounds _ seg e h2).2 hseg
      | none =>
        cases h3 : lastEnd pySpace seg with
        | some e => exact le_trans (lastEnd_bounds _ seg e h3).2 hseg
        | none => exact le_refl _

/-- The `while text:` loop of `_split_message_static` (tg_event.py lines
172-188): take the first `MAX_MESSAGE_LENGTH` characters as the search
window, split after the last match of the highest-priority pattern, left-trim
the remainder, repeat. -/
def splitLoop (text : List Char) : List (List Char) :=
  if _h0 : text = [] then []
  else if _h1 : text.length ≤ MAX_MESSAGE_LENGTH then [text]
  else
    let seg := text.take MAX_MESSAGE_LENGTH
    let sp := splitPoint seg
    text.take sp :: splitLoop ((text.drop sp).dropWhile pySpace)
termination_by text.length
decreasing_by
  have hpos : 1 ≤ splitPoint (text.take MAX_MESSAGE_LENGTH) :=
    splitPoint_pos _
  have hdw : ((text.drop (splitPoint (text.take MAX_MESSAGE_LENGTH))).dropWhile pySpace).length
      ≤ (text.drop (splitPoint (text.take MAX_MESSAGE_LENGTH))).length :=
    dropWhile_length_le _ _
  have hdrop : (text.drop (splitPoint (text.take MAX_MESSAGE_LENGTH))).length
      = text.length - splitPoint (text.take MAX_MESSAGE_LENGTH) := List.length_drop _ _
  simp only [MAX_MESSAGE_LENGTH] at *
  omega

/-- `_split_message_static(text)` (tg_event.py lines 157-189): texts that
already fit are returned as a single chunk, longer texts go through the
chunking loop. -/
def splitMessageStatic (text : PyStr) : List PyStr :=
  if text.length ≤ MAX_MESSAGE_LENGTH then [text]
  else splitLoop text

/-- `_split_message` (tg_event.py lines 45-67) duplicates the static helper
verbatim with the same constants. -/
def splitMessage (text : PyStr) : List PyStr := splitMessageStatic text

/-! ## Session-id wire format

`convert_message` composes `<chat_id>`, `<chat_id>#<thread_id>` and
`<chat_id>#business#<connection_id>` (tg_adapter.py lines 266-294);
`send_with_client` parses them back (tg_event.py lines 89-111). -/

/-- The business-connection separator `"#business#"`. -/
def bizSep : PyStr := pystr "#business#"

/-- Python `s.split(sep)` restricted to the first occurrence: returns
`(before, after)` for the leftmost occurrence of `sep`, or `none` when `sep`
does not occur.  Occurrences are found scanning left to right. -/
def pySplitFirst (sep : PyStr) : PyStr → Option (PyStr × PyStr)
  | [] => none
  | c :: rest =>
    if sep.isPrefixOf (c :: rest) then some ([], (c :: rest).drop sep.length)
    else (pySplitFirst sep rest).map (fun p => (c :: p.1, p.2))

/-- Python `"needle" in s` (substring containment). -/
def pyContainsSub (sep : PyStr) (s : PyStr) : Bool :=
  (pySplitFirst sep s).isSome

/-- `parts[1]` of Python `s.split(sep)`: the segment between the first and the
second occurrence of `sep` (or the whole remainder when there is no second
occurrence). -/
def pySplitSecondPart (sep rest : PyStr) : PyStr :=
  match pySplitFirst sep rest with
  | some (b, _) => b
  | none => rest

/-- Session-id composition as `convert_message` performs it: the chat id,
then (for forum-topic group messages) `#<thread_id>`, then (for business
messages) `#business#<connection_id>` (tg_adapter.py lines 266-294). -/
def composeSessionId (chatId : PyStr) (thread : Option PyStr) (business : Option PyStr) : PyStr :=
  let s := chatId
  let s := match thread with
    | some t => s ++ '#' :: t
    | none => s
  match business with
  | some b => s ++ bizSep ++ b
  | none => s

/-- The target recovered from a session id. -/
inductive ParsedTarget where
  | plain (chatId : PyStr)
  | thread (chatId : PyStr) (threadId : PyStr)
  | business (chatId : PyStr) (connId : PyStr)
deriving DecidableEq, Repr

/-- Python exceptions that can escape the modelled operations. -/
inductive PyErr where
  | nameError
  | attributeError
  | valueError
  | apiError
deriving DecidableEq, Repr

/-- Session-id parsing as `send_with_client` performs it (tg_event.py lines
92-111): if `"#business#"` occurs, `parts[0]` is the chat id and `parts[1]`
the connection id; otherwise if `"#"` occurs the two-way unpacking
`user_name, thread = session_id.split("#")` succeeds only when there is
exactly one `#` (a `ValueError` otherwise); otherwise the id is the bare
chat id. -/
def parseSendTarget (s : PyStr) : Except PyErr ParsedTarget :=
  match pySplitFirst bizSep s with
  | some (a, rest) => .ok (.business a (pySplitSecondPart bizSep rest))
  | none =>
    if '#' ∈ s then
      if s.count '#' = 1 then
        match pySplitFirst ['#'] s with
        | some (a, b) => .ok (.thread a b)
        | none => .error .valueError
      else .error .valueError
    else .ok (.plain s)

/-! ## Message components and platform calls -/

/-- The message-chain components handled by the adapter
(`astrbot.api.message_components`): only the fields the two source files
read are modelled. -/
inductive MsgComp where
  | Plain (text : PyStr)
  | At (qq : PyStr) (name : PyStr)
  | Reply (id : PyStr) (chain : List MsgComp) (senderId : PyStr)
      (senderNickname : PyStr) (time : Nat) (messageStr : PyStr)
      (text : PyStr) (qq2 : PyStr)
  | Image (file : PyStr) (url : PyStr)
  | Record (file : PyStr) (url : PyStr)
  | File (file : PyStr) (name : PyStr)
  | Video (file : PyStr) (path : PyStr)

/-- A stored business connection: the dict the adapter builds in
`business_connection_handler` (tg_adapter.py lines 234-240). -/
structure ConnInfo where
  userId : Int
  userChatId : Int
  isEnabled : Bool
  canReply : Bool
  date : Nat
deriving DecidableEq, Repr

/-- The keyword payload assembled per outbound call (tg_event.py lines
113-122): `chat_id` always, `reply_to_message_id`, `message_thread_id`
and `business_connection_id` only when truthy. -/
structure ApiPayload where
  chatId : PyStr
  replyToMessageId : Option PyStr
  messageThreadId : Option PyStr
  businessConnectionId : Option PyStr
deriving DecidableEq, Repr

/-- Build the payload: optional entries are included only when their Python
value is truthy (non-`None` and non-empty). -/
def mkPayload (chatId : PyStr) (hasReply : Bool) (replyId : Option PyStr)
    (thread business : Option PyStr) : ApiPayload :=
  { chatId := chatId
    replyToMessageId := if hasReply then replyId else none
    messageThreadId := match thread with
      | some t => if t ≠ [] then some t else none
      | none => none
    businessConnectionId := match business with
      | some b => if b ≠ [] then some b else none
      | none => none }

/-- A platform API call issued against the `ExtBot` client. -/
inductive ApiCall where
  | sendMessage (payload : ApiPayload) (text : PyStr) (parseMode : Option PyStr)
  | sendPhoto (payload : ApiPayload) (photo : PyStr)
  | sendDocument (payload : ApiPayload) (document : PyStr) (filename : PyStr)
  | sendVoice (payload : ApiPayload) (voice : PyStr)
  | editMessageText (chatId : PyStr) (messageId : Option Nat) (text : PyStr)
      (parseMode : Option PyStr)
  | deleteMyCommands
  | setMyCommands (commands : List (PyStr × PyStr))
deriving DecidableEq, Repr

/-- The warnings the two source files log (tags for `logger.warning` /
`logger.error` sites). -/
inductive LogWarn where
  | cannotReply (connId : PyStr)
  | connDisabled (connId : PyStr)
  | connNotFound (connId : PyStr)
  | mdSendFailed
  | streamSendFailed
  | streamEditFailed
  | mdConvertFailed
  | unsupportedCompType
  | registerError
deriving DecidableEq, Repr

/-! ## `send_with_client` (tg_event.py lines 69-155) -/

/-- Oracles for a send: `md` is `telegramify_markdown.markdownify` (`none`
models the call raising), `clientOk k` tells whether the `k`-th issued
client call succeeds, `convPath` is `convert_to_file_path`, `tempPath` the
downloaded temp-file path for a `File` with an `https://` source. -/
structure SendEnv where
  md : PyStr → Option PyStr
  clientOk : Nat → Bool
  convPath : PyStr → PyStr
  tempPath : PyStr → PyStr

/-- Result of the first scan over the chain (tg_event.py lines 78-86):
last `Reply`'s id and last `At`'s name win. -/
structure ChainScan where
  hasReply : Bool
  replyMessageId : Option PyStr
  atUserId : Option PyStr
deriving DecidableEq, Repr

/-- The scan loop `for i in message.chain` (tg_event.py lines 81-86). -/
def scanChain (chain : List MsgComp) : ChainScan :=
  chain.foldl
    (fun s c =>
      match c with
      | .Reply id _ _ _ _ _ _ _ => { s with hasReply := true, replyMessageId := some id }
      | .At _ name => { s with atUserId := some name }
      | _ => s)
    ⟨false, none, none⟩

/-- Mutable state threaded through the send loop. -/
structure SendState where
  calls : List ApiCall
  warns : List LogWarn
  callIdx : Nat
  atFlag : Bool

/-- Issue one client call: records it in the trace and reports whether the
oracle lets it succeed. -/
def issueCall (env : SendEnv) (st : SendState) (c : ApiCall) : SendState × Bool :=
  ({ st with calls := st.calls ++ [c], callIdx := st.callIdx + 1 }, env.clientOk st.callIdx)

/-- Send the chunks of one `Plain` component (tg_event.py lines 129-141):
per chunk try MarkdownV2 (skipping the send entirely when `markdownify`
itself raises), fall back to a plain-text send whose failure propagates. -/
def sendChunks (env : SendEnv) (payload : ApiPayload) :
    SendState → List PyStr → Except PyErr SendState
  | st, [] => .ok st
  | st, chunk :: rest =>
    let afterMd : SendState × Bool :=
      match env.md chunk with
      | some mdText =>
        issueCall env st (.sendMessage payload mdText (some (pystr "MarkdownV2")))
      | none => (st, false)
    if afterMd.2 then sendChunks env payload afterMd.1 rest
    else
      let st1 := { afterMd.1 with warns := afterMd.1.warns ++ [.mdSendFailed] }
      let res := issueCall env st1 (.sendMessage payload chunk none)
      if res.2 then sendChunks env payload res.1 rest
      else .error .apiError

/-- One iteration of the send loop body (tg_event.py lines 124-155). -/
def sendComp (env : SendEnv) (payload : ApiPayload) (atUserId : Option PyStr)
    (st : SendState) (c : MsgComp) : Except PyErr SendState :=
  match c with
  | .Plain text =>
    let prefixed : PyStr × Bool :=
      match atUserId with
      | some n =>
        if n ≠ [] ∧ ¬st.atFlag then ('@' :: n ++ ' ' :: text, true) else (text, st.atFlag)
      | none => (text, st.atFlag)
    let st := { st with atFlag := prefixed.2 }
    sendChunks env payload st (splitMessageStatic prefixed.1)
  | .Image file _ =>
    let res := issueCall env st (.sendPhoto payload (env.convPath file))
    if res.2 then .ok res.1 else .error .apiError
  | .File file name =>
    let file1 := if (pystr "https://").isPrefixOf file then env.tempPath name else file
    let res := issueCall env st (.sendDocument payload file1 name)
    if res.2 then .ok res.1 else .error .apiError
  | .Record file _ =>
    let res := issueCall env st (.sendVoice payload (env.convPath file))
    if res.2 then .ok res.1 else .error .apiError
  | _ => .ok st

/-- Calls issued and warnings logged by one send. -/
structure SendOutcome where
  calls : List ApiCall
  warns : List LogWarn
deriving DecidableEq, Repr

/-- The main loop of `send_with_client` over the chain, after the business
gate has been passed. -/
def sendChainLoop (env : SendEnv) (payload : ApiPayload) (atUserId : Option PyStr)
    (warns0 : List LogWarn) (chain : List MsgComp) : Except PyErr SendOutcome :=
  (chain.foldlM (sendComp env payload atUserId)
      { calls := [], warns := warns0, callIdx := 0, atFlag := false }).map
    (fun st => ⟨st.calls, st.warns⟩)

/-- `TelegramPlatformEvent.send_with_client` (tg_event.py lines 69-155):
scan the chain, parse the session id, apply the business-connection gate,
then send each component. -/
def sendWithClient (env : SendEnv) (table : List (PyStr × ConnInfo))
    (chain : List MsgComp) (userName : PyStr) : Except PyErr SendOutcome :=
  let scan := scanChain chain
  match parseSendTarget userName with
  | .error e => .error e
  | .ok (.business chatId connId) =>
    match table.lookup connId with
    | some info =>
      if ¬info.canReply then .ok ⟨[], [.cannotReply connId]⟩
      else if ¬info.isEnabled then .ok ⟨[], [.connDisabled connId]⟩
      else
        sendChainLoop env (mkPayload chatId scan.hasReply scan.replyMessageId none (some connId))
          scan.atUserId [] chain
    | none =>
      sendChainLoop env (mkPayload chatId scan.hasReply scan.replyMessageId none (some connId))
        scan.atUserId [.connNotFound connId] chain
  | .ok (.thread chatId threadId) =>
    sendChainLoop env (mkPayload chatId scan.hasReply scan.replyMessageId (some threadId) none)
      scan.atUserId [] chain
  | .ok (.plain chatId) =>
    sendChainLoop env (mkPayload chatId scan.hasReply scan.replyMessageId none none)
      scan.atUserId [] chain

/-! ## `send_streaming` (tg_event.py lines 195-319)

Event-loop times are modelled as exact rationals read from a clock oracle;
the throttle interval is `0.6` seconds.  Subtraction and the `>=`
comparison on times are implemented by cross-multiplication so they are
exact rational arithmetic. -/

/-- Exact rational subtraction (used only for time arithmetic). -/
def ratSub (a b : Rat) : Rat :=
  mkRat (a.num * (b.den : Int) - b.num * (a.den : Int)) (a.den * b.den)

/-- Exact `a >= b` on rationals by cross-multiplication (denominators are
positive by construction). -/
def ratGe (a b : Rat) : Bool :=
  decide (b.num * (a.den : Int) ≤ a.num * (b.den : Int))

/-- `throttle_interval = 0.6` (tg_event.py line 235). -/
def throttleInterval : Rat := mkRat 6 10

/-- `AstrMessageEvent` message types relevant here. -/
inductive MsgType where
  | FriendMessage
  | GroupMessage
  | OtherMessage
deriving DecidableEq, Repr

/-- Oracles for a streaming session: `md` and `clientOk` as in `SendEnv`,
`msgIdOf k` the `message_id` of the message returned by the `k`-th issued
call when it is a successful send, `clock k` the `k`-th reading of
`asyncio.get_event_loop().time()`. -/
structure StreamEnv where
  md : PyStr → Option PyStr
  clientOk : Nat → Bool
  msgIdOf : Nat → Nat
  clock : Nat → Rat
  convPath : PyStr → PyStr
  tempPath : PyStr → PyStr

/-- The local variables of `send_streaming` plus the recorded trace.
`msgVar` models the Python local `msg`, which is only bound by a
*successful* `send_message` (an unbound read raises `NameError`);
`visible` models the text currently shown by the remote message (updated
by each successful send/edit). -/
structure StreamState where
  delta : PyStr
  currentContent : PyStr
  messageId : Option Nat
  msgVar : Option Nat
  lastEditTime : Rat
  clockIdx : Nat
  callIdx : Nat
  calls : List ApiCall
  warns : List LogWarn
  visible : Option PyStr

/-- Issue one client call inside the streaming loop. -/
def streamIssue (env : StreamEnv) (st : StreamState) (c : ApiCall) :
    StreamState × Bool × Nat :=
  ({ st with calls := st.calls ++ [c], callIdx := st.callIdx + 1 },
   env.clientOk st.callIdx, st.callIdx)

/-- Body of `for i in chain.chain` (tg_event.py lines 240-264): `Plain`
text extends the delta buffer; media are sent immediately (failures of
those unguarded calls propagate); other components log a warning. -/
def streamComp (env : StreamEnv) (payload : ApiPayload)
    (st : StreamState) (c : MsgComp) : Except PyErr StreamState :=
  match c with
  | .Plain t => .ok { st with delta := st.delta ++ t }
  | .Image file _ =>
    let res := streamIssue env st (.sendPhoto payload (env.convPath file))
    if res.2.1 then .ok res.1 else .error .apiError
  | .File file name =>
    let file1 := if (pystr "https://").isPrefixOf file then env.tempPath name else file
    let res := streamIssue env st (.sendDocument payload file1 name)
    if res.2.1 then .ok res.1 else .error .apiError
  | .Record file _ =>
    let res := streamIssue env st (.sendVoice payload (env.convPath file))
    if res.2.1 then .ok res.1 else .error .apiError
  | _ => .ok { st with warns := st.warns ++ [.unsupportedCompType] }

/-- The `# Plain` block run once per chain (tg_event.py lines 266-297).
With an existing message and a fitting buffer, edit under throttling
(`delta` is *not* cleared by edits); otherwise send the buffer as a new
message, clear it, and read `msg.message_id` — a `NameError` when no send
has ever succeeded. -/
def streamPlainBlock (env : StreamEnv) (payload : ApiPayload)
    (st : StreamState) : Except PyErr StreamState :=
  if st.messageId.isSome ∧ st.delta.length ≤ MAX_MESSAGE_LENGTH then
    let currentTime := env.clock st.clockIdx
    let st := { st with clockIdx := st.clockIdx + 1 }
    let timeSinceLastEdit := ratSub currentTime st.lastEditTime
    if ratGe timeSinceLastEdit throttleInterval then
      let res := streamIssue env st (.editMessageText payload.chatId st.messageId st.delta none)
      let st1 := res.1
      let st2 :=
        if res.2.1 then { st1 with currentContent := st1.delta, visible := some st1.delta }
        else { st1 with warns := st1.warns ++ [.streamEditFailed] }
      .ok { st2 with lastEditTime := env.clock st2.clockIdx, clockIdx := st2.clockIdx + 1 }
    else .ok st
  else
    let res := streamIssue env st (.sendMessage payload st.delta none)
    let st1 := res.1
    let st2 :=
      if res.2.1 then
        { st1 with
          msgVar := some (env.msgIdOf res.2.2)
          currentContent := st1.delta
          delta := []
          visible := some st1.delta }
      else { st1 with warns := st1.warns ++ [.streamSendFailed] }
    match st2.msgVar with
    | none => .error .nameError
    | some mid =>
      .ok { st2 with
        messageId := some mid
        lastEditTime := env.clock st2.clockIdx
        clockIdx := st2.clockIdx + 1 }

/-- Processing of one yielded `MessageChain` (tg_event.py lines 237-297). -/
def streamChain (env : StreamEnv) (payload : ApiPayload)
    (st : StreamState) (comps : List MsgComp) : Except PyErr StreamState :=
  (comps.foldlM (streamComp env payload) st) >>= streamPlainBlock env payload

/-- The final-edit block (tg_event.py lines 299-317): if undelivered delta
remains and differs from the last delivered content, edit with MarkdownV2,
falling back to a plain edit, all failures swallowed by the outer
`try`/`except`. -/
def streamFinal (env : StreamEnv) (payload : ApiPayload) (st : StreamState) : StreamState :=
  if st.delta ≠ [] ∧ st.currentContent ≠ st.delta then
    match env.md st.delta with
    | some mdText =>
      let res := streamIssue env st
        (.editMessageText payload.chatId st.messageId mdText (some (pystr "MarkdownV2")))
      if res.2.1 then { res.1 with visible := some mdText }
      else
        let st2 := { res.1 with warns := res.1.warns ++ [.mdConvertFailed] }
        let res2 := streamIssue env st2 (.editMessageText payload.chatId st.messageId st.delta none)
        if res2.2.1 then { res2.1 with visible := some st.delta }
        else { res2.1 with warns := res2.1.warns ++ [.streamEditFailed] }
    | none =>
      let st2 := { st with warns := st.warns ++ [.mdConvertFailed] }
      let res2 := streamIssue env st2 (.editMessageText payload.chatId st.messageId st.delta none)
      if res2.2.1 then { res2.1 with visible := some st.delta }
      else { res2.1 with warns := res2.1.warns ++ [.streamEditFailed] }
  else st

/-- Observable outcome of a streaming session. -/
structure StreamOutcome where
  calls : List ApiCall
  warns : List LogWarn
  visible : Option PyStr
deriving DecidableEq, Repr

/-- Initial streaming state. -/
def streamInit (warns0 : List LogWarn) : StreamState :=
  { delta := [], currentContent := [], messageId := none, msgVar := none
    lastEditTime := 0, clockIdx := 0, callIdx := 0, calls := [], warns := warns0
    visible := none }

/-- Run the streaming loop over a finite stream after the gate. -/
def streamRun (env : StreamEnv) (payload : ApiPayload) (warns0 : List LogWarn)
    (stream : List (List MsgComp)) : Except PyErr StreamOutcome :=
  (stream.foldlM (streamChain env payload) (streamInit warns0)).map
    (fun st =>
      let fin := streamFinal env payload st
      ⟨fin.calls, fin.warns, fin.visible⟩)

/-- `TelegramPlatformEvent.send_streaming` (tg_event.py lines 195-319):
parse the session id (the thread form applies only to group messages),
apply the business gate (a denial falls back to the superclass
implementation, issuing no platform calls here), then run the
send-then-edit loop. -/
def sendStreaming (env : StreamEnv) (table : List (PyStr × ConnInfo))
    (sessionId : PyStr) (msgType : MsgType) (stream : List (List MsgComp)) :
    Except PyErr StreamOutcome :=
  match pySplitFirst bizSep sessionId with
  | some (userName, rest) =>
    let connId := pySplitSecondPart bizSep rest
    match table.lookup connId with
    | some info =>
      if ¬info.canReply then .ok ⟨[], [.cannotReply connId], none⟩
      else if ¬info.isEnabled then .ok ⟨[], [.connDisabled connId], none⟩
      else
        streamRun env (mkPayload userName false none none (some connId)) [] stream
    | none =>
      streamRun env (mkPayload userName false none none (some connId))
        [.connNotFound connId] stream
  | none =>
    if '#' ∈ sessionId ∧ msgType = .GroupMessage then
      if sessionId.count '#' = 1 then
        match pySplitFirst ['#'] sessionId with
        | some (userName, threadId) =>
          streamRun env (mkPayload userName false none (some threadId) none) [] stream
        | none => .error .valueError
      else .error .valueError
    else streamRun env (mkPayload sessionId false none none none) [] stream

/-! ## Command registry synchronizer (tg_adapter.py lines 140-211) -/

/-- Lexicographic `<=` on Python strings (code-point order, as `sorted`
uses). -/
def pyStrLe : PyStr → PyStr → Bool
  | [], _ => true
  | _ :: _, [] => false
  | a :: as_, b :: bs => if a = b then pyStrLe as_ bs else decide (a.toNat < b.toNat)

/-- Insert into a sorted list (model of Python `sorted`; keys are distinct
here so stability is irrelevant). -/
def insertStr (x : PyStr) : List PyStr → List PyStr
  | [] => [x]
  | y :: ys => if pyStrLe x y then x :: y :: ys else y :: insertStr x ys

/-- Sort a list of Python strings lexicographically. -/
def sortPyStr : List PyStr → List PyStr
  | [] => []
  | x :: xs => insertStr x (sortPyStr xs)

/-- The event filters `_extract_command_info` distinguishes
(`CommandFilter`, `CommandGroupFilter`, anything else). -/
inductive EventFilter where
  | commandFilter (commandName : PyStr) (parentCommandNames : List PyStr)
  | commandGroupFilter (groupName : PyStr) (parentGroup : Option PyStr)
  | otherFilter
deriving DecidableEq, Repr

/-- The handler metadata `collect_commands` reads: whether the handler's
module is activated (`star_map[...].activated`), its event filters, and its
declared description (`""` behaves as absent, like Python falsiness). -/
structure HandlerMeta where
  activated : Bool
  eventFilters : List EventFilter
  desc : PyStr
deriving DecidableEq, Repr

/-- The regex `^[a-z0-9_]+$` plus the 32-character cap
(tg_adapter.py line 201). -/
def validCommandName (n : PyStr) : Bool :=
  n ≠ [] && n.all (fun c => ('a' ≤ c && c ≤ 'z') || ('0' ≤ c && c ≤ '9') || c = '_')
    && n.length ≤ 32

/-- `_extract_command_info` (tg_adapter.py lines 178-211); the reserved set
`skip_commands` is `{"start"}`. -/
def extractCommandInfo (f : EventFilter) (hdesc : PyStr) : Option (PyStr × PyStr) :=
  let picked : Option (PyStr × Bool) :=
    match f with
    | .commandFilter n parents =>
      if n ≠ [] then
        if parents ≠ [] ∧ parents ≠ [[]] then none else some (n, false)
      else none
    | .commandGroupFilter g parent =>
      if parent.isSome then none else some (g, true)
    | .otherFilter => none
  match picked with
  | none => none
  | some (n, isGroup) =>
    if n = [] ∨ n = pystr "start" then none
    else if ¬validCommandName n then none
    else
      let description :=
        if hdesc ≠ [] then hdesc
        else if isGroup then pystr "指令组: " ++ n ++ pystr " (包含多个子指令)"
        else pystr "指令: " ++ n
      let description :=
        if description.length > 30 then description.take 30 ++ pystr "..." else description
      some (n, description)

/-- The ordered list of `(name, description)` contributions, in registry
discovery order (activated handlers only). -/
def commandContribs (handlers : List HandlerMeta) : List (PyStr × PyStr) :=
  handlers.foldl
    (fun acc h =>
      if h.activated then acc ++ h.eventFilters.filterMap (fun f => extractCommandInfo f h.desc)
      else acc)
    []

/-- `dict.setdefault`: insert only when the key is absent. -/
def setdefault (d : List (PyStr × PyStr)) (kv : PyStr × PyStr) : List (PyStr × PyStr) :=
  if (d.lookup kv.1).isSome then d else d ++ [kv]

/-- The `command_dict` built by `collect_commands` (tg_adapter.py lines
160-174). -/
def commandDict (handlers : List HandlerMeta) : List (PyStr × PyStr) :=
  (commandContribs handlers).foldl setdefault []

/-- `collect_commands` (tg_adapter.py lines 158-176): the dict's keys,
sorted, paired with their stored descriptions. -/
def collectCommands (handlers : List HandlerMeta) : List (PyStr × PyStr) :=
  let d := commandDict handlers
  (sortPyStr (d.map Prod.fst)).map (fun k => (k, (d.lookup k).getD []))

/-- Observable outcome of one `register_commands` run. -/
structure RegOutcome where
  newHash : Option Int
  calls : List ApiCall
  errorLogged : Bool
deriving DecidableEq, Repr

/-- `register_commands` (tg_adapter.py lines 140-156).  `hashFn` models
Python's `hash(tuple(...))` fingerprint; `deleteOk`/`setOk` tell whether
the two remote calls succeed.  Note the fingerprint is assigned *before*
the remote calls are attempted; the surrounding `try`/`except` logs any
error at error level. -/
def registerCommands (hashFn : List (PyStr × PyStr) → Int) (lastHash : Option Int)
    (commands : List (PyStr × PyStr)) (deleteOk setOk : Bool) : RegOutcome :=
  if commands ≠ [] then
    let currentHash := hashFn commands
    if some currentHash = lastHash then ⟨lastHash, [], false⟩
    else
      if deleteOk then
        if setOk then ⟨some currentHash, [.deleteMyCommands, .setMyCommands commands], false⟩
        else ⟨some currentHash, [.deleteMyCommands, .setMyCommands commands], true⟩
      else ⟨some currentHash, [.deleteMyCommands], true⟩
  else ⟨lastHash, [], false⟩

/-! ## Inbound translation: `convert_message` (tg_adapter.py lines 251-399)

External awaits (`get_file()` etc.) are modelled by storing their results
(file paths) directly on the input objects. -/

/-- Python `s[a:b]` (clamping slice). -/
def pySlice (s : PyStr) (a b : Nat) : PyStr := (s.take b).drop a

/-- Python `s[:a] + s[b:]` (excising a slice). -/
def pyRemoveSlice (s : PyStr) (a b : Nat) : PyStr := s.take a ++ s.drop b

/-- Python `str.lower()` (ASCII case folding suffices here). -/
def pyLower (s : PyStr) : PyStr := s.map Char.toLower

/-- Python `str.strip()`. -/
def pyStrip (s : PyStr) : PyStr :=
  ((s.dropWhile pySpace).reverse.dropWhile pySpace).reverse

/-- Python `s.split(sep, 1)`: the part before the first separator and,
when a separator occurs, the remainder. -/
def pySplitOnce (sep : Char) : PyStr → PyStr × Option PyStr
  | [] => ([], none)
  | c :: rest =>
    if c = sep then ([], some rest)
    else
      let r := pySplitOnce sep rest
      (c :: r.1, r.2)

/-- Python `s.split(sep)` on a single-character separator. -/
def pySplitAll (sep : Char) : PyStr → List PyStr
  | [] => [[]]
  | c :: rest =>
    let r := pySplitAll sep rest
    if c = sep then [] :: r
    else
      match r with
      | h :: t2 => (c :: h) :: t2
      | [] => [[c]]

/-- Python `str(int)` (`Int.repr` matches Python's decimal rendering). -/
def intToPyStr (i : Int) : PyStr := (toString i).data

/-- Telegram chat kinds distinguished by the adapter
(`chat.type == ChatType.PRIVATE` or anything else). -/
inductive TgChatType where
  | privateChat
  | group
  | supergroup
  | channel
deriving DecidableEq, Repr

structure TgChat where
  id : Int
  chatType : TgChatType
deriving DecidableEq, Repr

structure TgUser where
  id : Int
  username : PyStr
deriving DecidableEq, Repr

/-- A text entity (`entity.type`, `entity.offset`, `entity.length`). -/
structure TgEntity where
  type : PyStr
  offset : Nat
  length : Nat
deriving DecidableEq, Repr

/-- A sticker: the fetched file path and optional emoji. -/
structure TgSticker where
  filePath : PyStr
  emoji : Option PyStr
deriving DecidableEq, Repr

/-- A document: the fetched file path and declared file name. -/
structure TgDocument where
  filePath : PyStr
  fileName : PyStr
deriving DecidableEq, Repr

/-- The non-recursive payload of a Telegram message object: exactly the
attributes `convert_message` reads.  Media attributes store the
`get_file().file_path` result directly. -/
structure TgMessageData where
  chat : TgChat
  messageThreadId : Option Int
  isTopicMessage : Bool
  messageId : Int
  fromUser : TgUser
  text : Option PyStr
  entities : List TgEntity
  voiceFilePath : Option PyStr
  photo : List PyStr
  caption : Option PyStr
  captionEntities : List TgEntity
  sticker : Option TgSticker
  document : Option TgDocument
  videoFilePath : Option PyStr
  businessConnectionId : Option PyStr
deriving Repr

/-- A Telegram message: its payload plus the optional replied-to message
(`reply_to_message`). -/
inductive TgMessage where
  | mk (data : TgMessageData) (replyToMessage : Option TgMessage)

/-- Payload projection. -/
def tgMsgData : TgMessage → TgMessageData
  | .mk d _ => d

/-- An `Update`: at most one of `message`, `business_message`,
`edited_business_message` is populated by the wire. -/
structure TgUpdate where
  message : Option TgMessage
  businessMessage : Option TgMessage
  editedBusinessMessage : Option TgMessage

/-- The canonical message the adapter builds (`AstrBotMessage`); the
`timestamp` default comes from the external constructor and is modelled
as 0. -/
structure AstrBotMessage where
  sessionId : PyStr
  msgType : MsgType
  groupId : PyStr
  messageId : PyStr
  senderUserId : PyStr
  senderNickname : PyStr
  selfId : PyStr
  messageStr : PyStr
  message : List MsgComp
  businessConnectionId : Option PyStr
  timestamp : Nat

/-- Side effects `convert_message` itself performs (`self.start` on a
`/start` text sends the configured greeting). -/
inductive AdapterAction where
  | startGreeting (chatId : Int) (text : PyStr)
deriving DecidableEq, Repr

/-- The text-payload branch (tg_adapter.py lines 321-355): `@botname`
command normalization (two-way unpacking of `split("@")`, a `ValueError`
when the token has more than one `@`), mention-entity processing over the
*mutating* `plain_text`, `/start` interception. -/
def processTextPayload (bot startMsg : PyStr) (chatId : Int) (entities : List TgEntity)
    (base : AstrBotMessage) (acts : List AdapterAction) (replyComps : List MsgComp)
    (t : PyStr) : Except PyErr (List AdapterAction × Option AstrBotMessage) :=
  let step1 : Except PyErr PyStr :=
    if t.head? = some '/' then
      let parts := pySplitOnce ' ' t
      if '@' ∈ parts.1 then
        match pySplitAll '@' parts.1 with
        | [command, botName] =>
          if botName = bot then
            .ok (command ++ (match parts.2 with | some rest => ' ' :: rest | none => []))
          else .ok t
        | _ => .error .valueError
      else .ok t
    else .ok t
  match step1 with
  | .error e => .error e
  | .ok plainText0 =>
    let folded := entities.foldl
      (fun (pc : PyStr × List MsgComp) e =>
        if e.type = pystr "mention" then
          let name := pySlice pc.1 (e.offset + 1) (e.offset + e.length)
          let comps := pc.2 ++ [MsgComp.At name name]
          if pyLower name = pyLower bot then
            (pyRemoveSlice pc.1 e.offset (e.offset + e.length), comps)
          else (pc.1, comps)
        else pc)
      (plainText0, replyComps)
    let plainText := folded.1
    let comps := if plainText ≠ [] then folded.2 ++ [MsgComp.Plain plainText] else folded.2
    if pyStrip plainText = pystr "/start" then
      .ok (acts ++ [AdapterAction.startGreeting chatId startMsg], none)
    else
      .ok (acts, some { base with message := comps, messageStr := plainText })

/-- The non-text payload branches (tg_adapter.py lines 357-397), in source
order: voice, photo (with caption and caption entities), sticker,
document, video.  Note voice/document/video *assign* `message.message`,
discarding any reply component collected earlier; photo/sticker append. -/
def nonTextPayload (d : TgMessageData) (base : AstrBotMessage)
    (acts : List AdapterAction) (replyComps : List MsgComp) :
    Except PyErr (List AdapterAction × Option AstrBotMessage) :=
  match d.voiceFilePath with
  | some vf => .ok (acts, some { base with message := [MsgComp.Record vf vf] })
  | none =>
    if d.photo ≠ [] then
      let fp := d.photo.getLast?.getD []
      let comps := replyComps ++ [MsgComp.Image fp fp]
      let capTruthy : Bool := match d.caption with | some c => c ≠ [] | none => false
      let msgStr := if capTruthy then (d.caption.getD []) else []
      let comps := if capTruthy then comps ++ [MsgComp.Plain msgStr] else comps
      let comps := comps ++ d.captionEntities.filterMap (fun e =>
        if e.type = pystr "mention" then
          let name := pySlice msgStr (e.offset + 1) (e.offset + e.length)
          some (MsgComp.At name name)
        else none)
      .ok (acts, some { base with message := comps, messageStr := msgStr })
    else
      match d.sticker with
      | some stk =>
        let comps := replyComps ++ [MsgComp.Image stk.filePath stk.filePath]
        match stk.emoji with
        | some em =>
          if em ≠ [] then
            let stickerText := pystr "Sticker: " ++ em
            .ok (acts, some { base with
              message := comps ++ [MsgComp.Plain stickerText], messageStr := stickerText })
          else .ok (acts, some { base with message := comps })
        | none => .ok (acts, some { base with message := comps })
      | none =>
        match d.document with
        | some doc =>
          .ok (acts, some { base with message := [MsgComp.File doc.filePath doc.fileName] })
        | none =>
          match d.videoFilePath with
          | some vf => .ok (acts, some { base with message := [MsgComp.Video vf vf] })
          | none => .ok (acts, some { base with message := replyComps })

/-- `convert_message` on a selected message object.  The `getReply`
parameter mirrors the Python parameter of the same name: the source
accepts it (docstring: it exists to prevent nested replies) but the body
never reads it — the reply branch below is unconditional.  A recursive
translation returning `None` (a replied-to `/start` text) makes the outer
call read `reply_abm.message_id`, an `AttributeError`. -/
def convertMsgCore (bot startMsg : PyStr) (m : TgMessage) (businessMsg : Option TgMessage)
    (getReply : Bool) : Except PyErr (List AdapterAction × Option AstrBotMessage) :=
  match m with
  | .mk d rep =>
    let chatStr := intToPyStr d.chat.id
    let isPrivate := d.chat.chatType = TgChatType.privateChat
    let threadSuffix : Option PyStr :=
      if isPrivate then none
      else
        match d.messageThreadId with
        | some tid => if tid ≠ 0 then some (intToPyStr tid) else none
        | none => none
    let groupId : PyStr := if isPrivate then [] else composeSessionId chatStr threadSuffix none
    let bizSuffix : Option PyStr :=
      match businessMsg with
      | some bm =>
        match (tgMsgData bm).businessConnectionId with
        | some cid => if cid ≠ [] then some cid else none
        | none => none
      | none => none
    let base : AstrBotMessage :=
      { sessionId := composeSessionId chatStr threadSuffix bizSuffix
        msgType := if isPrivate then .FriendMessage else .GroupMessage
        groupId := groupId
        messageId := intToPyStr d.messageId
        senderUserId := intToPyStr d.fromUser.id
        senderNickname := d.fromUser.username
        selfId := bot
        messageStr := []
        message := []
        businessConnectionId := bizSuffix
        timestamp := 0 }
    let replyStep : Except PyErr (List AdapterAction × List MsgComp) :=
      match rep with
      | some r =>
        let topicHeaderRef : Bool := d.isTopicMessage &&
          (match d.messageThreadId with
           | some tid => decide (tid = (tgMsgData r).messageId)
           | none => false)
        if topicHeaderRef then .ok ([], [])
        else
          match convertMsgCore bot startMsg r none false with
          | .error e => .error e
          | .ok (acts, none) => .error .attributeError
          | .ok (acts, some rm) =>
            .ok (acts, [MsgComp.Reply rm.messageId rm.message rm.senderUserId
              rm.senderNickname rm.timestamp rm.messageStr rm.messageStr rm.senderUserId])
      | none => .ok ([], [])
    match replyStep with
    | .error e => .error e
    | .ok (acts, replyComps) =>
      match d.text with
      | some t =>
        if t ≠ [] then
          processTextPayload bot startMsg d.chat.id d.entities base acts replyComps t
        else nonTextPayload d base acts replyComps
      | none => nonTextPayload d base acts replyComps

/-- `convert_message(update, context, get_reply)` (tg_adapter.py lines
251-399): select `update.message or update.business_message or
update.edited_business_message`; the business-session suffix comes from
`update.business_message or update.edited_business_message`. -/
def convertMessage (bot startMsg : PyStr) (u : TgUpdate) (getReply : Bool) :
    Except PyErr (List AdapterAction × Option AstrBotMessage) :=
  match u.message <|> u.businessMessage <|> u.editedBusinessMessage with
  | none => .ok ([], none)
  | some m =>
    convertMsgCore bot startMsg m (u.businessMessage <|> u.editedBusinessMessage) getReply

/-- Is a component a `Reply`? -/
def isReplyComp : MsgComp → Bool
  | .Reply _ _ _ _ _ _ _ _ => true
  | _ => false

/-- Does the part list contain a `Reply` whose embedded chain itself
contains a `Reply` (i.e. reply nesting of depth ≥ 2)? -/
def hasReplyWithNestedReply (parts : List MsgComp) : Bool :=
  parts.any fun c =>
    match c with
    | .Reply _ chain _ _ _ _ _ _ => chain.any isReplyComp
    | _ => false

/-! ## Lemmas about `pySplitFirst` (session-id parsing) -/

/-- A list is a `isPrefixOf`-prefix of itself followed by anything. -/
theorem isPrefixOf_append_self (l t : PyStr) : l.isPrefixOf (l ++ t) = true := by
  induction l with
  | nil => simp [List.isPrefixOf]
  | cons a l ih => simp [List.isPrefixOf, ih]

/-- Soundness of `isPrefixOf`. -/
theorem isPrefixOf_exists : ∀ (l s : PyStr), l.isPrefixOf s = true → ∃ t, s = l ++ t := by
  intro l
  induction l with
  | nil => intro s _; exact ⟨s, rfl⟩
  | cons a l ih =>
    intro s h
    cases s with
    | nil => simp [List.isPrefixOf] at h
    | cons b s' =>
      simp only [List.isPrefixOf, Bool.and_eq_true, beq_iff_eq] at h
      obtain ⟨rfl, h2⟩ := h
      obtain ⟨t, rfl⟩ := ih s' h2
      exact ⟨t, rfl⟩

/-- Splitting at a separator whose first character does not occur in the
prefix finds exactly that prefix. -/
theorem pySplitFirst_append (s0 : Char) (srest : PyStr) :
    ∀ (c x : PyStr), s0 ∉ c →
      pySplitFirst (s0 :: srest) (c ++ (s0 :: srest) ++ x) = some (c, x) := by
  intro c
  induction c with
  | nil =>
    intro x _
    show pySplitFirst (s0 :: srest) ((s0 :: srest) ++ x) = some ([], x)
    have hstep : (s0 :: srest) ++ x = s0 :: (srest ++ x) := List.cons_append _ _ _
    rw [hstep]
    simp only [pySplitFirst]
    rw [← hstep, if_pos (isPrefixOf_append_self _ _), List.drop_left]
  | cons ch cs ih =>
    intro x hc
    have hch : ch ≠ s0 := by
      intro hcontr
      exact hc (by simp [hcontr])
    have hcs : s0 ∉ cs := fun hmem => hc (List.mem_cons_of_mem _ hmem)
    have hstep : (ch :: cs) ++ (s0 :: srest) ++ x = ch :: (cs ++ (s0 :: srest) ++ x) := by
      simp
    rw [hstep]
    simp only [pySplitFirst]
    have hnp : (s0 :: srest).isPrefixOf (ch :: (cs ++ (s0 :: srest) ++ x)) = false := by
      simp only [List.isPrefixOf, Bool.and_eq_false_iff]
      left
      simp only [beq_eq_false_iff_ne, ne_eq]
      exact fun heq => hch heq.symm
    rw [hnp]
    simp only [if_false, Bool.false_eq_true]
    have harg : cs ++ (s0 :: srest) ++ x = cs ++ ((s0 :: srest) ++ x) := by simp
    rw [show cs ++ s0 :: srest ++ x = cs ++ (s0 :: srest) ++ x from by simp]
    rw [ih x hcs]
    rfl

/-- Soundness of `pySplitFirst`: a successful split decomposes the string. -/
theorem pySplitFirst_sound (sep : PyStr) :
    ∀ (s a b : PyStr), pySplitFirst sep s = some (a, b) → s = a ++ sep ++ b := by
  intro s
  induction s with
  | nil => intro a b h; simp [pySplitFirst] at h
  | cons c rest ih =>
    intro a b h
    simp only [pySplitFirst] at h
    by_cases hp : sep.isPrefixOf (c :: rest) = true
    · rw [if_pos hp] at h
      obtain ⟨t, ht⟩ := isPrefixOf_exists sep (c :: rest) hp
      cases h
      rw [ht, List.drop_left, List.nil_append]
    · rw [if_neg hp] at h
      simp only [Option.map_eq_some'] at h
      obtain ⟨⟨a', b'⟩, hsp, heq⟩ := h
      cases heq
      have hres := ih a' b' hsp
      simp [hres]

/-- If a string does not contain two `#` characters, `"#business#"` cannot
occur in it. -/
theorem pySplitFirst_bizSep_none (s : PyStr) (h : s.count '#' < 2) :
    pySplitFirst bizSep s = none := by
  cases hp : pySplitFirst bizSep s with
  | none => rfl
  | some p =>
    obtain ⟨a, b⟩ := p
    have hdec := pySplitFirst_sound bizSep s a b hp
    have hcnt : s.count '#' = a.count '#' + bizSep.count '#' + b.count '#' := by
      rw [hdec]
      simp [List.count_append]
      omega
    have hbiz : bizSep.count '#' = 2 := by decide
    omega

/-- No containment means no split. -/
theorem pySplitFirst_eq_none_of_not_contains (sep s : PyStr)
    (h : pyContainsSub sep s = false) : pySplitFirst sep s = none := by
  cases hp : pySplitFirst sep s with
  | none => rfl
  | some p =>
    exfalso
    rw [pyContainsSub, hp] at h
    simp at h

/-- C8.  For each of the three documented session-id forms, composing the
session id the way `convert_message` does and parsing it the way
`send_with_client` does recovers the chat id and the suffix component
exactly.  The hypotheses state that the components are of the documented
shape: chat ids and thread ids contain no `#` (they are rendered integers)
and the connection id does not contain the reserved separator. -/
theorem sessionId_roundTrip (c t x : PyStr) (hc : '#' ∉ c) (ht : '#' ∉ t)
    (hx : pyContainsSub bizSep x = false) :
    parseSendTarget (composeSessionId c none none) = .ok (.plain c)
  ∧ parseSendTarget (composeSessionId c (some t) none) = .ok (.thread c t)
  ∧ parseSendTarget (composeSessionId c none (some x)) = .ok (.business c x) := by
  have hcnt_c : c.count '#' = 0 := List.count_eq_zero.mpr hc
  have hcnt_t : t.count '#' = 0 := List.count_eq_zero.mpr ht
  refine ⟨?_, ?_, ?_⟩
  · -- plain form
    show parseSendTarget c = .ok (.plain c)
    have hnone : pySplitFirst bizSep c = none :=
      pySplitFirst_bizSep_none c (by omega)
    rw [parseSendTarget, hnone]
    simp only
    rw [if_neg (by simpa using hc)]
  · -- thread form
    show parseSendTarget (c ++ '#' :: t) = .ok (.thread c t)
    have hcount : (c ++ '#' :: t).count '#' = 1 := by
      rw [List.count_append, List.count_cons_self]
      omega
    have hnone : pySplitFirst bizSep (c ++ '#' :: t) = none :=
      pySplitFirst_bizSep_none _ (by omega)
    have hmem : '#' ∈ c ++ '#' :: t :=
      List.mem_append_right _ (List.mem_cons_self _ _)
    have hsplit : pySplitFirst ['#'] (c ++ '#' :: t) = some (c, t) := by
      have := pySplitFirst_append '#' [] c t hc
      simpa using this
    rw [parseSendTarget, hnone]
    simp only
    rw [if_pos hmem, if_pos hcount, hsplit]
  · -- business form
    show parseSendTarget (c ++ bizSep ++ x) = .ok (.business c x)
    have hbiz : bizSep = '#' :: pystr "business#" := rfl
    have hsplit : pySplitFirst bizSep (c ++ bizSep ++ x) = some (c, x) := by
      rw [hbiz]
      exact pySplitFirst_append '#' (pystr "business#") c x hc
    rw [parseSendTarget, hsplit]
    simp only [Except.ok.injEq, ParsedTarget.business.injEq, true_and]
    rw [pySplitSecondPart, pySplitFirst_eq_none_of_not_contains bizSep x hx]

/-- Witness for C8 at the concrete forms `123`, `123#45`,
`123#business#conn1`. -/
theorem sessionId_roundTrip_witness :
    ('#' ∉ pystr "123") ∧ ('#' ∉ pystr "45")
  ∧ (pyContainsSub bizSep (pystr "conn1") = false)
  ∧ (parseSendTarget (composeSessionId (pystr "123") none none)
        = .ok (.plain (pystr "123"))
     ∧ parseSendTarget (composeSessionId (pystr "123") (some (pystr "45")) none)
        = .ok (.thread (pystr "123") (pystr "45"))
     ∧ parseSendTarget (composeSessionId (pystr "123") none (some (pystr "conn1")))
        = .ok (.business (pystr "123") (pystr "conn1"))) :=
  ⟨by decide, by decide, by rfl,
    sessionId_roundTrip (pystr "123") (pystr "45") (pystr "conn1")
      (by decide) (by decide) (by rfl)⟩

/-- C5.  If the outbound session id carries a business-connection id that is
present in the table with `can_reply` false or `is_enabled` false,
`send_with_client` issues zero platform API calls and logs exactly one
warning, regardless of the chain; if the id is absent from the table, the
send proceeds through the normal chain loop (with a "not found" warning),
as if allowed. -/
theorem sendWithClient_business_gate (env : SendEnv) (table : List (PyStr × ConnInfo))
    (chain : List MsgComp) (userName chatId connId : PyStr)
    (hparse : parseSendTarget userName = .ok (.business chatId connId)) :
    (∀ info, table.lookup connId = some info →
      info.canReply = false ∨ info.isEnabled = false →
      sendWithClient env table chain userName =
        .ok ⟨[], [if info.canReply = false then .cannotReply connId else .connDisabled connId]⟩)
  ∧ (table.lookup connId = none →
      sendWithClient env table chain userName =
        sendChainLoop env
          (mkPayload chatId (scanChain chain).hasReply (scanChain chain).replyMessageId
            none (some connId))
          (scanChain chain).atUserId [.connNotFound connId] chain) := by
  constructor
  · intro info hlk hdeny
    rcases Bool.eq_false_or_eq_true info.canReply with hcr | hcr
    · have hie : info.isEnabled = false := by
        rcases hdeny with h | h
        · rw [h] at hcr; cases hcr
        · exact h
      simp [sendWithClient, hparse, hlk, hcr, hie]
    · simp [sendWithClient, hparse, hlk, hcr]
  · intro hlk
    simp [sendWithClient, hparse, hlk]

/-- Concrete denied business connection for the C5 witness. -/
def wConn : ConnInfo := { userId := 1, userChatId := 2, isEnabled := true, canReply := false, date := 0 }

/-- Oracles for witnesses: markdown rendering succeeds verbatim, every
client call succeeds. -/
def wEnv : SendEnv := { md := fun s => some s, clientOk := fun _ => true, convPath := id, tempPath := id }

/-- Witness for C5: with `can_reply = false`, a nonempty chain produces zero
calls and one warning. -/
theorem sendWithClient_business_gate_witness :
    parseSendTarget (pystr "10#business#b1") = .ok (.business (pystr "10") (pystr "b1"))
  ∧ ([(pystr "b1", wConn)]).lookup (pystr "b1") = some wConn
  ∧ (wConn.canReply = false ∨ wConn.isEnabled = false)
  ∧ sendWithClient wEnv [(pystr "b1", wConn)] [MsgComp.Plain (pystr "hello")]
      (pystr "10#business#b1") = .ok ⟨[], [.cannotReply (pystr "b1")]⟩ := by
  refine ⟨rfl, rfl, Or.inl rfl, ?_⟩
  have h := (sendWithClient_business_gate wEnv [(pystr "b1", wConn)]
    [MsgComp.Plain (pystr "hello")] (pystr "10#business#b1") (pystr "10") (pystr "b1")
    rfl).1 wConn rfl (Or.inl rfl)
  simpa using h

/-! ## Lemmas about the text segmenter -/

/-- Everything in a whitespace run is filtered away by the
non-whitespace filter. -/
theorem filter_takeWhile_pySpace (l : List Char) :
    (l.takeWhile pySpace).filter (fun c => !pySpace c) = [] := by
  apply List.filter_eq_nil_iff.mpr
  intro a ha
  have hmem := List.mem_takeWhile_imp ha
  simp [hmem]

/-- The chunking loop preserves the subsequence of non-whitespace
characters. -/
theorem splitLoop_flatten_filter :
    ∀ (n : Nat) (text : List Char), text.length ≤ n →
      ((splitLoop text).flatten).filter (fun c => !pySpace c)
        = text.filter (fun c => !pySpace c) := by
  intro n
  induction n with
  | zero =>
    intro text h
    have h0 : text = [] := by
      cases text with
      | nil => rfl
      | cons a l => simp at h
    subst h0
    rw [splitLoop.eq_def]
    simp
  | succ n ih =>
    intro text h
    rw [splitLoop.eq_def]
    by_cases h0 : text = []
    · rw [dif_pos h0]
      subst h0
      simp
    · rw [dif_neg h0]
      by_cases h1 : text.length ≤ MAX_MESSAGE_LENGTH
      · rw [dif_pos h1]
        simp
      · rw [dif_neg h1]
        show ((text.take (splitPoint (text.take MAX_MESSAGE_LENGTH))
            :: splitLoop (((text.drop (splitPoint (text.take MAX_MESSAGE_LENGTH)))).dropWhile pySpace)).flatten).filter
              (fun c => !pySpace c) = text.filter (fun c => !pySpace c)
        set sp := splitPoint (text.take MAX_MESSAGE_LENGTH) with hsp
        have hpos : 1 ≤ sp := splitPoint_pos _
        have hrec : ((text.drop sp).dropWhile pySpace).length ≤ n := by
          have hdw := dropWhile_length_le pySpace (text.drop sp)
          have hdr : (text.drop sp).length = text.length - sp := List.length_drop _ _
          omega
        have IH := ih _ hrec
        rw [List.flatten_cons, List.filter_append, IH]
        have hsplit : (text.drop sp).filter (fun c => !pySpace c)
            = ((text.drop sp).dropWhile pySpace).filter (fun c => !pySpace c) := by
          conv_lhs => rw [← List.takeWhile_append_dropWhile pySpace (text.drop sp)]
          rw [List.filter_append, filter_takeWhile_pySpace, List.nil_append]
        rw [← hsplit, ← List.filter_append, List.take_append_drop]

/-- Every chunk produced by the loop is nonempty and at most
`MAX_MESSAGE_LENGTH` long. -/
theorem splitLoop_chunks_aux :
    ∀ (n : Nat) (text : List Char), text.length ≤ n →
      ∀ c ∈ splitLoop text, c ≠ [] ∧ c.length ≤ MAX_MESSAGE_LENGTH := by
  intro n
  induction n with
  | zero =>
    intro text h c hc
    have h0 : text = [] := by
      cases text with
      | nil => rfl
      | cons a l => simp at h
    subst h0
    rw [splitLoop.eq_def] at hc
    simp at hc
  | succ n ih =>
    intro text h c hc
    rw [splitLoop.eq_def] at hc
    by_cases h0 : text = []
    · rw [dif_pos h0] at hc
      simp at hc
    · rw [dif_neg h0] at hc
      by_cases h1 : text.length ≤ MAX_MESSAGE_LENGTH
      · rw [dif_pos h1] at hc
        simp only [List.mem_singleton] at hc
        subst hc
        exact ⟨h0, h1⟩
      · rw [dif_neg h1] at hc
        have hc2 : c ∈ text.take (splitPoint (text.take MAX_MESSAGE_LENGTH))
            :: splitLoop (((text.drop (splitPoint (text.take MAX_MESSAGE_LENGTH)))).dropWhile pySpace) := hc
        set sp := splitPoint (text.take MAX_MESSAGE_LENGTH) with hsp
        have hpos : 1 ≤ sp := splitPoint_pos _
        have hseglen : (text.take MAX_MESSAGE_LENGTH).length = MAX_MESSAGE_LENGTH := by
          rw [List.length_take]
          omega
        have hle : sp ≤ MAX_MESSAGE_LENGTH := splitPoint_le _ (by omega)
        rcases List.mem_cons.mp hc2 with hhd | htl
        · subst hhd
          have hlen : (text.take sp).length = sp := by
            rw [List.length_take]
            omega
          constructor
          · intro hnil
            rw [hnil] at hlen
            simp at hlen
            omega
          · omega
        · have hrec : ((text.drop sp).dropWhile pySpace).length ≤ n := by
            have hdw := dropWhile_length_le pySpace (text.drop sp)
            have hdr : (text.drop sp).length = text.length - sp := List.length_drop _ _
            omega
          exact ih _ hrec c htl

/-- C6.  Concatenating the chunks of the splitter reproduces the text's
content up to the whitespace trimmed at chunk boundaries: the subsequence
of non-whitespace characters is preserved exactly (nothing lost, nothing
duplicated, order kept). -/
theorem splitMessage_content (T : PyStr) :
    ((splitMessageStatic T).flatten).filter (fun c => !pySpace c)
      = T.filter (fun c => !pySpace c) := by
  rw [splitMessageStatic]
  by_cases h : T.length ≤ MAX_MESSAGE_LENGTH
  · rw [if_pos h]
    simp
  · rw [if_neg h]
    exact splitLoop_flatten_filter T.length T (le_refl _)

/-- Counterexample to C7 as stated: on the empty text the splitter returns
the single chunk `""`, so "no returned chunk is the empty string" fails at
`T = ""`. -/
theorem splitMessage_empty_chunk_on_empty_input :
    splitMessageStatic (pystr "") = [[]] ∧ ([] : PyStr) ∈ splitMessageStatic (pystr "") := by
  constructor
  · rfl
  · rw [show splitMessageStatic (pystr "") = [[]] from rfl]
    exact List.mem_singleton.mpr rfl

/-- C7 (amended).  Every chunk returned by the splitter (including the
last) has length at most 4096, and for a nonempty input no returned chunk
is empty; on the empty input the result is the single empty chunk. -/
theorem splitMessage_bounds (T : PyStr) :
    (∀ c ∈ splitMessageStatic T, c.length ≤ MAX_MESSAGE_LENGTH)
  ∧ (T ≠ [] → ∀ c ∈ splitMessageStatic T, c ≠ []) := by
  constructor
  · intro c hc
    rw [splitMessageStatic] at hc
    by_cases h : T.length ≤ MAX_MESSAGE_LENGTH
    · rw [if_pos h] at hc
      simp only [List.mem_singleton] at hc
      subst hc
      exact h
    · rw [if_neg h] at hc
      exact (splitLoop_chunks_aux T.length T (le_refl _) c hc).2
  · intro hT c hc
    rw [splitMessageStatic] at hc
    by_cases h : T.length ≤ MAX_MESSAGE_LENGTH
    · rw [if_pos h] at hc
      simp only [List.mem_singleton] at hc
      subst hc
      exact hT
    · rw [if_neg h] at hc
      exact (splitLoop_chunks_aux T.length T (le_refl _) c hc).1

/-- Witness for the amended C7 at the nonempty input `"ab"`. -/
theorem splitMessage_bounds_witness :
    (pystr "ab" ≠ []) ∧ (∀ c ∈ splitMessageStatic (pystr "ab"), c.length ≤ MAX_MESSAGE_LENGTH)
  ∧ (∀ c ∈ splitMessageStatic (pystr "ab"), c ≠ []) :=
  ⟨by decide, (splitMessage_bounds (pystr "ab")).1,
    (splitMessage_bounds (pystr "ab")).2 (by decide)⟩

/-! ## Lemmas about the command collector -/

/-- `Char.toNat` is injective (code points identify characters). -/
theorem charToNat_inj {a b : Char} (h : a.toNat = b.toNat) : a = b := by
  rcases a with ⟨⟨⟨av, ha⟩⟩, hva⟩
  rcases b with ⟨⟨⟨bv, hb⟩⟩, hvb⟩
  simp [Char.toNat, UInt32.toNat] at h
  subst h
  rfl

/-- Transitivity of the lexicographic string order. -/
theorem pyStrLe_trans : ∀ (a b c : PyStr),
    pyStrLe a b = true → pyStrLe b c = true → pyStrLe a c = true := by
  intro a
  induction a with
  | nil => intro b c _ _; rfl
  | cons x xs ih =>
    intro b c h1 h2
    cases b with
    | nil => simp [pyStrLe] at h1
    | cons y ys =>
      cases c with
      | nil => simp [pyStrLe] at h2
      | cons z zs =>
        simp only [pyStrLe] at h1 h2 ⊢
        by_cases hxy : x = y
        · subst hxy
          rw [if_pos rfl] at h1
          by_cases hxz : x = z
          · subst hxz
            rw [if_pos rfl] at h2 ⊢
            exact ih ys zs h1 h2
          · rw [if_neg hxz] at h2 ⊢
            exact h2
        · rw [if_neg hxy] at h1
          have hlt1 : x.toNat < y.toNat := of_decide_eq_true h1
          by_cases hyz : y = z
          · subst hyz
            by_cases hxz : x = y
            · exact absurd hxz hxy
            · rw [if_neg hxz]
              exact decide_eq_true hlt1
          · rw [if_neg hyz] at h2
            have hlt2 : y.toNat < z.toNat := of_decide_eq_true h2
            have hlt : x.toNat < z.toNat := Nat.lt_trans hlt1 hlt2
            by_cases hxz : x = z
            · subst hxz
              omega
            · rw [if_neg hxz]
              exact decide_eq_true hlt

/-- Totality of the lexicographic string order. -/
theorem pyStrLe_total : ∀ (a b : PyStr), pyStrLe a b = true ∨ pyStrLe b a = true := by
  intro a
  induction a with
  | nil => intro b; left; rfl
  | cons x xs ih =>
    intro b
    cases b with
    | nil => right; rfl
    | cons y ys =>
      by_cases hxy : x = y
      · subst hxy
        simp only [pyStrLe, if_pos rfl]
        exact ih ys
      · rcases Nat.lt_trichotomy x.toNat y.toNat with hlt | heq | hgt
        · left
          simp only [pyStrLe, if_neg hxy]
          exact decide_eq_true hlt
        · exact absurd (charToNat_inj heq) hxy
        · right
          have hyx : y ≠ x := fun h => hxy h.symm
          simp only [pyStrLe, if_neg hyx]
          exact decide_eq_true hgt

/-- Membership through `insertStr`. -/
theorem mem_insertStr (x : PyStr) :
    ∀ (l : List PyStr) (y : PyStr), y ∈ insertStr x l ↔ y = x ∨ y ∈ l := by
  intro l
  induction l with
  | nil => intro y; simp [insertStr]
  | cons z zs ih =>
    intro y
    simp only [insertStr]
    by_cases h : pyStrLe x z = true
    · rw [if_pos h]
      simp [List.mem_cons]
    · rw [if_neg h]
      simp only [List.mem_cons, ih]
      tauto

/-- `insertStr` preserves sortedness. -/
theorem pairwise_insertStr (x : PyStr) :
    ∀ (l : List PyStr), l.Pairwise (fun a b => pyStrLe a b = true) →
      (insertStr x l).Pairwise (fun a b => pyStrLe a b = true) := by
  intro l
  induction l with
  | nil => intro _; simp [insertStr]
  | cons y ys ih =>
    intro h
    obtain ⟨hy, hys⟩ := List.pairwise_cons.mp h
    simp only [insertStr]
    by_cases hxy : pyStrLe x y = true
    · rw [if_pos hxy]
      refine List.Pairwise.cons ?_ h
      intro z hz
      rcases List.mem_cons.mp hz with rfl | hz2
      · exact hxy
      · exact pyStrLe_trans x y z hxy (hy z hz2)
    · rw [if_neg hxy]
      refine List.Pairwise.cons ?_ (ih hys)
      intro z hz
      rcases (mem_insertStr x ys z).mp hz with rfl | hz2
      · rcases pyStrLe_total y z with h2 | h2
        · exact h2
        · exact absurd h2 hxy
      · exact hy z hz2

/-- `sortPyStr` sorts. -/
theorem pairwise_sortPyStr (l : List PyStr) :
    (sortPyStr l).Pairwise (fun a b => pyStrLe a b = true) := by
  induction l with
  | nil => simp [sortPyStr]
  | cons x xs ih => exact pairwise_insertStr x _ ih

/-- `sortPyStr` is a permutation in the membership sense. -/
theorem mem_sortPyStr (y : PyStr) : ∀ (l : List PyStr), y ∈ sortPyStr l ↔ y ∈ l := by
  intro l
  induction l with
  | nil => simp [sortPyStr]
  | cons x xs ih =>
    simp only [sortPyStr, mem_insertStr, ih, List.mem_cons]

/-- Association lookup distributes over append. -/
theorem lookup_append (k : PyStr) : ∀ (l1 l2 : List (PyStr × PyStr)),
    List.lookup k (l1 ++ l2)
      = match List.lookup k l1 with
        | some v => some v
        | none => List.lookup k l2 := by
  intro l1
  induction l1 with
  | nil => intro l2; simp
  | cons p l1 ih =>
    intro l2
    obtain ⟨pk, pv⟩ := p
    simp only [List.cons_append, List.lookup]
    cases hk : k == pk with
    | true => rfl
    | false => exact ih l2

/-- A key already present before the `setdefault` fold keeps its value. -/
theorem lookup_foldl_setdefault_some (k v : PyStr) :
    ∀ (l : List (PyStr × PyStr)) (acc : List (PyStr × PyStr)),
      List.lookup k acc = some v →
      List.lookup k (l.foldl setdefault acc) = some v := by
  intro l
  induction l with
  | nil => intro acc h; exact h
  | cons kv l ih =>
    intro acc h
    simp only [List.foldl_cons]
    apply ih
    rw [setdefault]
    by_cases hs : (List.lookup kv.1 acc).isSome = true
    · rw [if_pos hs]
      exact h
    · rw [if_neg hs]
      rw [lookup_append, h]

/-- A key absent before the `setdefault` fold ends up mapped to the value of
its *first* contribution. -/
theorem lookup_foldl_setdefault_none (k : PyStr) :
    ∀ (l : List (PyStr × PyStr)) (acc : List (PyStr × PyStr)),
      List.lookup k acc = none →
      List.lookup k (l.foldl setdefault acc)
        = (l.find? (fun p => p.1 == k)).map Prod.snd := by
  intro l
  induction l with
  | nil => intro acc h; simpa using h
  | cons kv l ih =>
    intro acc hacc
    simp only [List.foldl_cons]
    by_cases hk : (kv.1 == k) = true
    · have hkeq : kv.1 = k := by simpa using hk
      have hsd : setdefault acc kv = acc ++ [kv] := by
        rw [setdefault, hkeq, hacc]
        simp
      rw [hsd]
      have hlk : List.lookup k (acc ++ [kv]) = some kv.2 := by
        rw [lookup_append, hacc]
        simp [List.lookup, hkeq]
      rw [lookup_foldl_setdefault_some k kv.2 l _ hlk]
      rw [List.find?_cons]
      rw [hk]
      rfl
    · have hne : List.lookup k (setdefault acc kv) = none := by
        rw [setdefault]
        by_cases hs : (List.lookup kv.1 acc).isSome = true
        · rw [if_pos hs]
          exact hacc
        · rw [if_neg hs]
          rw [lookup_append, hacc]
          have : (k == kv.1) = false := by
            simp only [beq_eq_false_iff_ne, ne_eq]
            intro heq
            rw [heq] at hk
            simp at hk
          simp [List.lookup, this]
      rw [ih _ hne, List.find?_cons_of_neg _ (by simpa using hk)]

/-- The command dict maps each name to its first contribution. -/
theorem commandDict_lookup (hs : List HandlerMeta) (k : PyStr) :
    List.lookup k (commandDict hs)
      = ((commandContribs hs).find? (fun p => p.1 == k)).map Prod.snd :=
  lookup_foldl_setdefault_none k _ [] rfl

/-- Keys of an association list have successful lookups. -/
theorem lookup_isSome_of_mem_keys (k : PyStr) :
    ∀ (d : List (PyStr × PyStr)), k ∈ d.map Prod.fst →
      (List.lookup k d).isSome = true := by
  intro d
  induction d with
  | nil => intro h; simp at h
  | cons p d ih =>
    intro h
    obtain ⟨pk, pv⟩ := p
    by_cases hk : k = pk
    · simp [List.lookup, hk]
    · have hk2 : (k == pk) = false := by simpa using hk
      simp only [List.lookup, hk2]
      apply ih
      simp only [List.map_cons, List.mem_cons] at h
      rcases h with h | h
      · exact absurd h hk
      · exact h

/-- Two activated handlers registering the same command name with
different descriptions, in this discovery order. -/
def c3h1 : HandlerMeta :=
  { activated := true, eventFilters := [.commandFilter (pystr "foo") []], desc := pystr "A" }

/-- Second handler for the duplicate-name scenario. -/
def c3h2 : HandlerMeta :=
  { activated := true, eventFilters := [.commandFilter (pystr "foo") []], desc := pystr "B" }

/-- Counterexample to C3 as stated: with two handlers contributing the name
`foo` (descriptions "A" then "B"), `collect_commands` keeps the *first*
registered description, not the last — `dict.setdefault` never overwrites. -/
theorem collectCommands_firstWins_example :
    collectCommands [c3h1, c3h2] = [(pystr "foo", pystr "A")]
  ∧ collectCommands [c3h1, c3h2] ≠ [(pystr "foo", pystr "B")] := by
  constructor
  · rfl
  · decide

/-- C3 (amended).  The final command list is sorted lexicographically by
name regardless of discovery order, and on duplicate names the
*first*-registered description wins (`setdefault` semantics). -/
theorem collectCommands_sorted_firstWins (hs : List HandlerMeta) :
    (collectCommands hs).Pairwise (fun a b => pyStrLe a.1 b.1 = true)
  ∧ ∀ k v, (k, v) ∈ collectCommands hs →
      ((commandContribs hs).find? (fun p => p.1 == k)).map Prod.snd = some v := by
  constructor
  · rw [collectCommands]
    refine List.pairwise_map.mpr ?_
    exact pairwise_sortPyStr _
  · intro k v hmem
    rw [collectCommands] at hmem
    simp only [List.mem_map] at hmem
    obtain ⟨k', hk', heq⟩ := hmem
    obtain ⟨rfl, rfl⟩ : k' = k ∧ ((commandDict hs).lookup k').getD [] = v := by
      exact ⟨congrArg Prod.fst heq, congrArg Prod.snd heq⟩
    have hkeys : k' ∈ (commandDict hs).map Prod.fst := (mem_sortPyStr k' _).mp hk'
    have hsome := lookup_isSome_of_mem_keys k' _ hkeys
    cases hlv : List.lookup k' (commandDict hs) with
    | none => rw [hlv] at hsome; simp at hsome
    | some v' =>
      rw [← commandDict_lookup, hlv]
      rfl

/-- Witness for the amended C3 on the concrete duplicate-name handlers. -/
theorem collectCommands_sorted_firstWins_witness :
    ((pystr "foo", pystr "A") ∈ collectCommands [c3h1, c3h2])
  ∧ ((commandContribs [c3h1, c3h2]).find? (fun p => p.1 == pystr "foo")).map Prod.snd
      = some (pystr "A") :=
  ⟨by decide, (collectCommands_sorted_firstWins [c3h1, c3h2]).2 (pystr "foo") (pystr "A")
    (by decide)⟩

/-! ## Claim theorems for the registry synchronizer and the streaming
controller -/

/-- Concrete fingerprint function for the registry counterexample. -/
def c2HashFn : List (PyStr × PyStr) → Int := fun l => (l.length : Int)

/-- Concrete desired command list. -/
def c2Cmds : List (PyStr × PyStr) := [(pystr "a", pystr "d")]

/-- Counterexample to C2 as stated: when `set_my_commands` raises, the
error is caught and logged, but `last_command_hash` has *already* been
updated (the assignment precedes the remote calls), so it is not left
unchanged. -/
theorem registerCommands_hash_updated_on_failed_publish :
    registerCommands c2HashFn none c2Cmds true false
      = ⟨some 1, [.deleteMyCommands, .setMyCommands c2Cmds], true⟩
  ∧ (registerCommands c2HashFn none c2Cmds true false).newHash ≠ none := by
  constructor
  · rfl
  · decide

/-- C2 (amended).  Any error during synchronization is caught and logged;
but when the remote `delete_my_commands`/`set_my_commands` call raises,
the fingerprint has already been set to the new hash, so a subsequent
invocation with the same desired command set makes no remote calls — the
failed publish is not retried. -/
theorem registerCommands_failed_publish_no_retry
    (hashFn : List (PyStr × PyStr) → Int) (lastHash : Option Int)
    (commands : List (PyStr × PyStr)) (deleteOk setOk : Bool)
    (hne : commands ≠ []) (hch : some (hashFn commands) ≠ lastHash)
    (hfail : deleteOk = false ∨ setOk = false) :
    (registerCommands hashFn lastHash commands deleteOk setOk).errorLogged = true
  ∧ (registerCommands hashFn lastHash commands deleteOk setOk).newHash
      = some (hashFn commands)
  ∧ ∀ d2 s2, (registerCommands hashFn (some (hashFn commands)) commands d2 s2).calls = [] := by
  refine ⟨?_, ?_, fun d2 s2 => ?_⟩
  · rw [registerCommands, if_pos hne, if_neg hch]
    rcases hfail with hf | hf <;> subst hf
    · simp
    · cases deleteOk <;> simp
  · rw [registerCommands, if_pos hne, if_neg hch]
    rcases hfail with hf | hf <;> subst hf
    · simp
    · cases deleteOk <;> simp
  · rw [registerCommands, if_pos hne, if_pos rfl]

/-- Witness for the amended C2 at a concrete failed `set_my_commands`. -/
theorem registerCommands_failed_publish_no_retry_witness :
    (c2Cmds ≠ []) ∧ (some (c2HashFn c2Cmds) ≠ (none : Option Int))
  ∧ ((registerCommands c2HashFn none c2Cmds true false).errorLogged = true
     ∧ (registerCommands c2HashFn none c2Cmds true false).newHash = some (c2HashFn c2Cmds)
     ∧ ∀ d2 s2, (registerCommands c2HashFn (some (c2HashFn c2Cmds)) c2Cmds d2 s2).calls = []) :=
  ⟨by decide, by decide,
    registerCommands_failed_publish_no_retry c2HashFn none c2Cmds true false
      (by decide) (by decide) (Or.inr rfl)⟩

/-- C10.  An empty desired command list short-circuits `register_commands`:
no remote call is issued (neither `delete_my_commands` nor
`set_my_commands`), the fingerprint is unchanged, and no error is logged. -/
theorem registerCommands_empty_noop (hashFn : List (PyStr × PyStr) → Int)
    (lastHash : Option Int) (deleteOk setOk : Bool) :
    registerCommands hashFn lastHash [] deleteOk setOk = ⟨lastHash, [], false⟩ := by
  rw [registerCommands]
  simp

/-- Streaming oracles for the C1 run: markdown rendering is the identity,
every remote call succeeds, clock readings 100, 100.2, 100.4 seconds —
every delta arrives within the 0.6 s throttle interval of the initial
send. -/
def c1Env : StreamEnv :=
  { md := fun s => some s, clientOk := fun _ => true, msgIdOf := fun _ => 42
    clock := fun k => mkRat (500 + (k : Int)) 5, convPath := id, tempPath := id }

/-- The three-delta stream of the spec's convergence property. -/
def c1Stream : List (List MsgComp) :=
  [[.Plain (pystr "Hello")], [.Plain (pystr " world")], [.Plain (pystr "!")]]

/-- C1 evaluated at the failing input: the controller issues exactly one
initial send and exactly one final edit, but the finally visible content
is `" world!"`, not the concatenation `"Hello world!"` — the buffer is
reset when the initial message is sent and later edits carry only the
post-reset deltas. -/
theorem sendStreaming_loses_initial_content :
    sendStreaming c1Env [] (pystr "123") .FriendMessage c1Stream =
      .ok { calls := [
              .sendMessage (mkPayload (pystr "123") false none none none) (pystr "Hello") none,
              .editMessageText (pystr "123") (some 42) (pystr " world!")
                (some (pystr "MarkdownV2"))]
            warns := []
            visible := some (pystr " world!") }
  ∧ pystr " world!" ≠ pystr "Hello" ++ pystr " world" ++ pystr "!" :=
  ⟨rfl, by decide⟩

/-- Streaming oracles for the C9 run: the initial `send_message` raises. -/
def c9Env : StreamEnv :=
  { md := fun s => some s, clientOk := fun _ => false, msgIdOf := fun _ => 42
    clock := fun k => mkRat (500 + (k : Int)) 5, convPath := id, tempPath := id }

/-- C9 evaluated at the failing input: when the initial streaming send
fails, the `except` block logs a warning but the following
`message_id = msg.message_id` reads the never-bound local `msg`, and the
resulting `NameError` propagates out of `send_streaming` instead of being
degraded to a logged warning. -/
theorem sendStreaming_nameError_on_failed_send :
    sendStreaming c9Env [] (pystr "123") .FriendMessage [[.Plain (pystr "Hi")]]
      = .error .nameError := rfl

/-- Telegram message payload used by the nested-reply run. -/
def c4Data (mid : Int) (txt : String) : TgMessageData :=
  { chat := ⟨10, .supergroup⟩, messageThreadId := none, isTopicMessage := false
    messageId := mid, fromUser := ⟨7, pystr "alice"⟩, text := some (pystr txt)
    entities := [], voiceFilePath := none, photo := [], caption := none
    captionEntities := [], sticker := none, document := none
    videoFilePath := none, businessConnectionId := none }

/-- `m1 <- m2 <- m3`: a two-level reply chain. -/
def c4m1 : TgMessage := .mk (c4Data 1 "a") none

def c4m2 : TgMessage := .mk (c4Data 2 "b") (some c4m1)

def c4m3 : TgMessage := .mk (c4Data 3 "c") (some c4m2)

/-- C4 evaluated at the failing input: translating a message that replies
to a message that itself replies to a third produces a `Reply` part whose
embedded chain contains another `Reply` part — the `get_reply=False`
passed to the recursive call is never consulted by the body, so reply
nesting is *not* bounded to depth 1. -/
theorem convertMessage_nested_reply :
    (match convertMessage (pystr "bot") (pystr "hi") ⟨some c4m3, none, none⟩ true with
     | .ok (_, some am) => hasReplyWithNestedReply am.message
     | _ => false) = true := by decide
